import Mathlib

/-
Verification development for the Movie-Recommender-System repository.

The embedding models the two scoring pipelines of the repository:
  * scripts/collab_filter_rec.py - user/item collaborative filtering over a
    user-item rating matrix built with pandas pivot, ranked by cosine
    similarity, with a cutoff of 5 recommendations;
  * scripts/content_based_rec.py - a genre-preference scorer
    (calculate_user_preference), a softmax-normalized recommendation vector,
    and a cache-backed generate_recommendation over a user_recommendations
    store.

Ratings and scores are modeled as rational numbers (exact arithmetic in
place of the scripts' floating point); softmax values live in the reals.
Python exceptions (pandas KeyError on a missing label, pandas ValueError on
a pivot with duplicate index pairs, sklearn ValueError on an empty matrix)
are modeled with an Except error type.
-/

namespace MovieRec

/-- Dot product of two rating vectors, pairing componentwise. -/
def dotp (v w : List ℚ) : ℚ := ((v.zip w).map (fun p => p.1 * p.2)).sum

/-- Squared Euclidean norm of a vector. -/
def sqnorm (v : List ℚ) : ℚ := dotp v v

/-- Decides whether cosine similarity sim(a, b) is at least sim(a, c), where
sim is sklearn cosine_similarity: dot x y / (norm x * norm y), with the
sklearn convention that a zero vector normalizes to zero (so its similarity
to anything is 0).  To stay within decidable rational arithmetic the square
roots are eliminated by sign analysis and squaring; this Boolean drives the
sort_values(ascending=False) ranking of collab_filter_rec.py (lines 68 and
110). -/
def simGE (a b c : List ℚ) : Bool :=
  let sb := dotp a b
  let sc := dotp a c
  if sqnorm a = 0 then true
  else if sqnorm b = 0 then (if sqnorm c = 0 then true else decide (sc ≤ 0))
  else if sqnorm c = 0 then decide (0 ≤ sb)
  else if 0 ≤ sb then
    (if 0 ≤ sc then decide (sc ^ 2 * sqnorm b ≤ sb ^ 2 * sqnorm c) else true)
  else (if 0 ≤ sc then false else decide (sb ^ 2 * sqnorm c ≤ sc ^ 2 * sqnorm b))

/-- The user-item interaction matrix (pandas DataFrame from
ratings_df.pivot, collab_filter_rec.py line 52): a sorted index of user
ids, a sorted index of movie ids, and a cell function. -/
structure UIMatrix where
  users : List ℕ
  movies : List ℕ
  cell : ℕ → ℕ → ℚ

/-- The (user_id, mov_id) key of each rating row. -/
def ratedKeys (rows : List (ℕ × ℕ × ℚ)) : List (ℕ × ℕ) :=
  rows.map (fun r => (r.1, r.2.1))

/-- Sorted list of the distinct elements, as a pandas pivot index. -/
def sortedDedup (l : List ℕ) : List ℕ :=
  List.insertionSort (· ≤ ·) l.dedup

/-- Cell lookup of the pivot table: the rating recorded for (u, m), and 0
after fillna(0) when no rating exists. -/
def cellOf (rows : List (ℕ × ℕ × ℚ)) (u m : ℕ) : ℚ :=
  ((rows.find? (fun r => r.1 == u && r.2.1 == m)).map (fun r => r.2.2)).getD 0

/-- Pivot of the rating rows into a user-item matrix
(collab_filter_rec.py line 52).  pandas pivot raises ValueError when the
same (user_id, mov_id) pair occurs twice, modeled by none. -/
def user_item_matrix (rows : List (ℕ × ℕ × ℚ)) : Option UIMatrix :=
  if (ratedKeys rows).Nodup then
    some ⟨sortedDedup (rows.map (fun r => r.1)),
          sortedDedup (rows.map (fun r => r.2.1)),
          cellOf rows⟩
  else none

/-- Failure modes of the collaborative-filtering script: pivotError for the
pandas ValueError on duplicate rating keys, emptyData for the sklearn
ValueError raised by cosine_similarity on a matrix with zero rows, notFound
for the pandas KeyError on a user id absent from the matrix index. -/
inductive RecError where
  | pivotError : RecError
  | emptyData : RecError
  | notFound : RecError
deriving DecidableEq

/-- Row of the interaction matrix: one user's ratings across all movie
columns. -/
def rowVec (M : UIMatrix) (u : ℕ) : List ℚ := M.movies.map (M.cell u)

/-- Column of the interaction matrix: one movie's ratings across all users
(a row of the transposed matrix, collab_filter_rec.py line 94). -/
def colVec (M : UIMatrix) (m : ℕ) : List ℚ := M.users.map (fun u => M.cell u m)

/-- Movies rated (cell strictly positive) by a user, as the set used on
lines 71 and 81 of collab_filter_rec.py. -/
def user_rated_movies (M : UIMatrix) (u : ℕ) : Finset ℕ :=
  (M.movies.filter (fun m => 0 < M.cell u m)).toFinset

/-- Movies rated by a user as an index-ordered list
(collab_filter_rec.py line 104). -/
def rated_movies (M : UIMatrix) (u : ℕ) : List ℕ :=
  M.movies.filter (fun m => 0 < M.cell u m)

/-- All users ranked by descending cosine similarity to the query user
(collab_filter_rec.py line 68). -/
def similar_users (M : UIMatrix) (uid : ℕ) : List ℕ :=
  List.insertionSort (fun a b => simGE (rowVec M uid) (rowVec M a) (rowVec M b) = true) M.users

/-- All movies ranked by descending cosine similarity to a rated movie
(collab_filter_rec.py line 110). -/
def similar_movies (M : UIMatrix) (rm : ℕ) : List ℕ :=
  List.insertionSort (fun a b => simGE (colVec M rm) (colVec M a) (colVec M b) = true) M.movies

/-- The user-mode recommendation loop (collab_filter_rec.py lines 74-85):
for each similar user other than the query user, add that user's whole set
of positively rated movies minus the query user's rated set, and stop once
the accumulated set has at least 5 elements. -/
def userLoop (M : UIMatrix) (rated : Finset ℕ) (uid : ℕ) :
    List ℕ → Finset ℕ → Finset ℕ
  | [], acc => acc
  | u :: rest, acc =>
    if u = uid then userLoop M rated uid rest acc
    else
      let acc' := acc ∪ (user_rated_movies M u \ rated)
      if 5 ≤ acc'.card then acc' else userLoop M rated uid rest acc'

/-- The inner item-mode loop (collab_filter_rec.py lines 112-116): walk the
movies similar to one rated movie, adding each movie the user has not
rated, and stop once the set has at least 5 elements. -/
def itemLoopInner (rated : List ℕ) : List ℕ → Finset ℕ → Finset ℕ
  | [], acc => acc
  | m :: rest, acc =>
    let acc' := if m ∈ rated then acc else insert m acc
    if 5 ≤ acc'.card then acc' else itemLoopInner rated rest acc'

/-- The outer item-mode loop (collab_filter_rec.py lines 108-118): for each
movie rated by the user, run the inner loop over its similar movies, and
stop once the set has at least 5 elements. -/
def itemLoopOuter (M : UIMatrix) (rated : List ℕ) : List ℕ → Finset ℕ → Finset ℕ
  | [], acc => acc
  | rm :: rest, acc =>
    let acc' := itemLoopInner rated (similar_movies M rm) acc
    if 5 ≤ acc'.card then acc' else itemLoopOuter M rated rest acc'

/-- User-User collaborative filtering (collab_filter_rec.py lines 57-87)
on a constructed matrix: cosine_similarity raises ValueError on an empty
matrix, indexing the similarity frame by an absent user raises KeyError,
otherwise the ranked loop produces the recommendation set. -/
def userModeRecM (M : UIMatrix) (uid : ℕ) : Except RecError (Finset ℕ) :=
  if M.users = [] then Except.error RecError.emptyData
  else if uid ∈ M.users then
    Except.ok (userLoop M (user_rated_movies M uid) uid (similar_users M uid) ∅)
  else Except.error RecError.notFound

/-- Item-Item collaborative filtering (collab_filter_rec.py lines 89-118)
on a constructed matrix. -/
def itemModeRecM (M : UIMatrix) (uid : ℕ) : Except RecError (Finset ℕ) :=
  if M.users = [] then Except.error RecError.emptyData
  else if uid ∈ M.users then
    Except.ok (itemLoopOuter M (rated_movies M uid) (rated_movies M uid) ∅)
  else Except.error RecError.notFound

/-- Full user-mode pipeline from the raw rating rows. -/
def userModeRec (rows : List (ℕ × ℕ × ℚ)) (uid : ℕ) : Except RecError (Finset ℕ) :=
  match user_item_matrix rows with
  | none => Except.error RecError.pivotError
  | some M => userModeRecM M uid

/-- Full item-mode pipeline from the raw rating rows. -/
def itemModeRec (rows : List (ℕ × ℕ × ℚ)) (uid : ℕ) : Except RecError (Finset ℕ) :=
  match user_item_matrix rows with
  | none => Except.error RecError.pivotError
  | some M => itemModeRecM M uid

/-- True when the pipeline signalled a failure instead of returning a
recommendation set. -/
def isErr (e : Except RecError (Finset ℕ)) : Bool :=
  match e with
  | Except.error _ => true
  | Except.ok _ => false

/-- Number of recommended items of a pipeline outcome (0 on failure). -/
def recCard (e : Except RecError (Finset ℕ)) : ℕ :=
  match e with
  | Except.error _ => 0
  | Except.ok s => s.card

/-- Membership of an item in the recommendation set of a pipeline outcome. -/
def recMem (e : Except RecError (Finset ℕ)) (m : ℕ) : Prop :=
  match e with
  | Except.error _ => False
  | Except.ok s => m ∈ s

/-- Size of the largest batch a single similar user can contribute in the
user-mode loop: the largest set of positively rated movies of any one user
minus the query user's rated set. -/
def maxBatch (M : UIMatrix) (uid : ℕ) : ℕ :=
  (M.users.map (fun u => (user_rated_movies M u \ user_rated_movies M uid).card)).foldr max 0

/-- Clamp of a rating into the range used by np.clip(user_ratings, 0, 5)
(content_based_rec.py line 109). -/
def clamp (x : ℚ) : ℚ := max 0 (min x 5)

/-- One component of np.dot(user_ratings, genre_matrix): the rating-weighted
sum of genre column j over the rated movies (content_based_rec.py
line 112). -/
def wsum (cr : List ℚ) (rows : List (List ℚ)) (j : ℕ) : ℚ :=
  ((cr.zip rows).map (fun p => p.1 * p.2.getD j 0)).sum

/-- calculate_user_preference (content_based_rec.py lines 97-121): clamp the
ratings to the range 0-5, take the rating-weighted sum of each of the g
genre columns, then divide by the sum of the clamped ratings when that sum
is positive and return the zero vector otherwise.  g is the genre-column
count carried by the shape of the numpy genre matrix. -/
def calculate_user_preference (g : ℕ) (ratings : List ℚ) (rows : List (List ℚ)) : List ℚ :=
  let cr := ratings.map clamp
  let pref := (List.range g).map (fun j => wsum cr rows j)
  let s := cr.sum
  if 0 < s then pref.map (fun x => x / s) else List.replicate g 0

/-- recommendation_vector = np.dot(genre_matrix, user_preference)
(content_based_rec.py line 155): one dot-product score per movie row. -/
def recommendation_vector (pref : List ℚ) (rows : List (List ℚ)) : List ℚ :=
  rows.map (fun row => dotp row pref)

/-- Maximum entry of a score vector (np.max), 0 for an empty vector. -/
def maxScore (s : List ℚ) : ℚ :=
  match s with
  | [] => 0
  | x :: xs => xs.foldl max x

/-- The softmax applied on content_based_rec.py lines 158-159, exactly as
written in the source: exp_scores = np.exp(recommendation_vector);
recommendation_probs = exp_scores / np.sum(exp_scores).  No maximum is
subtracted before exponentiating. -/
noncomputable def softmax (s : List ℚ) : List ℝ :=
  s.map (fun x : ℚ => Real.exp (x : ℝ) / (s.map (fun y : ℚ => Real.exp (y : ℝ))).sum)

/-- The SELECT of cached recommendations for a user, ordered by score
descending with LIMIT 5 (content_based_rec.py lines 149-151).  The store
holds (user_id, mov_id, rec_score) rows of the user_recommendations
table. -/
def selectCached (store : List (ℕ × ℕ × ℚ)) (uid : ℕ) : List (ℕ × ℕ × ℚ) :=
  (List.insertionSort (fun a b : ℕ × ℕ × ℚ => b.2.2 ≤ a.2.2)
    (store.filter (fun r => r.1 == uid))).take 5

/-- executemany of INSERT OR REPLACE INTO user_recommendations
(content_based_rec.py lines 162-164): each new row replaces the row with
its (user_id, mov_id) key or is appended. -/
def insertOrReplaceRows (store rows : List (ℕ × ℕ × ℚ)) : List (ℕ × ℕ × ℚ) :=
  rows.foldl (fun st r =>
    if st.any (fun x => x.1 == r.1 && x.2.1 == r.2.1) then
      st.map (fun x => if x.1 == r.1 && x.2.1 == r.2.1 then r else x)
    else st ++ [r]) store

/-- generate_recommendation (content_based_rec.py lines 124-168).  It first
selects cached rows for the user.  If none exist it computes the
recommendation vector, applies softmax, and runs executemany over the
variable named recommendations - which in the source is the empty SELECT
result, not the computed scores.  If cached rows exist it returns
np.array of rec index 1 of each row, which is the mov_id column, not the
rec_score column.  Returns the probability vector together with the store
after the call. -/
noncomputable def generate_recommendation (uid : ℕ) (pref : List ℚ)
    (rows : List (List ℚ)) (store : List (ℕ × ℕ × ℚ)) :
    List ℝ × List (ℕ × ℕ × ℚ) :=
  let recommendations := selectCached store uid
  if recommendations = [] then
    (softmax (recommendation_vector pref rows), insertOrReplaceRows store recommendations)
  else
    (recommendations.map (fun r => ((r.2.1 : ℕ) : ℝ)), store)

/- Helper lemmas about the pivot cell lookup. -/

/-- With duplicate-free rating keys, find? locates exactly the recorded row. -/
lemma find_eq_of_mem_nodup {rows : List (ℕ × ℕ × ℚ)} {u m : ℕ} {r : ℚ}
    (hnd : (ratedKeys rows).Nodup) (hm : (u, m, r) ∈ rows) :
    rows.find? (fun x => x.1 == u && x.2.1 == m) = some (u, m, r) := by
  induction rows with
  | nil => cases hm
  | cons a tl ih =>
    have hnd' : ((a.1, a.2.1) ∉ ratedKeys tl) ∧ (ratedKeys tl).Nodup := by
      simpa [ratedKeys] using hnd
    rcases List.mem_cons.mp hm with h | h
    · subst h
      simp [List.find?_cons]
    · by_cases hp : (a.1 == u && a.2.1 == m) = true
      · exfalso
        have hkey : (u, m) ∈ ratedKeys tl := by
          simp only [ratedKeys, List.mem_map]
          exact ⟨(u, m, r), h, rfl⟩
        have ha1 : a.1 = u := by
          have := (Bool.and_eq_true _ _).mp hp
          exact eq_of_beq this.1
        have ha2 : a.2.1 = m := by
          have := (Bool.and_eq_true _ _).mp hp
          exact eq_of_beq this.2
        rw [ha1, ha2] at hnd'
        exact hnd'.1 hkey
      · rw [List.find?_cons_of_neg _ (by simpa using hp)]
        exact ih hnd'.2 h

/-- When the key (u, m) never occurs among the rating rows, find? returns
none. -/
lemma find_eq_none_of_not_mem {rows : List (ℕ × ℕ × ℚ)} {u m : ℕ}
    (hk : (u, m) ∉ ratedKeys rows) :
    rows.find? (fun x => x.1 == u && x.2.1 == m) = none := by
  rw [List.find?_eq_none]
  intro x hx hpx
  apply hk
  have hx1 : x.1 = u := eq_of_beq ((Bool.and_eq_true _ _).mp hpx).1
  have hx2 : x.2.1 = m := eq_of_beq ((Bool.and_eq_true _ _).mp hpx).2
  simp only [ratedKeys, List.mem_map]
  exact ⟨x, hx, by rw [hx1, hx2]⟩

/-- Claim C8: for every input set of (user, item, rating) triples, the
constructed interaction matrix has, at every (user, item) pair with a
recorded rating, a cell equal to that rating, and every other cell is
exactly 0 (pandas pivot followed by fillna(0), collab_filter_rec.py
line 52). -/
theorem c8_matrix_cells (rows : List (ℕ × ℕ × ℚ)) (M : UIMatrix)
    (h : user_item_matrix rows = some M) :
    (∀ u m r, (u, m, r) ∈ rows → M.cell u m = r) ∧
    (∀ u m, (u, m) ∉ ratedKeys rows → M.cell u m = 0) := by
  unfold user_item_matrix at h
  split at h
  case isTrue hnd =>
    have hM : M.cell = cellOf rows := by
      cases Option.some.inj h
      rfl
    constructor
    · intro u m r hm
      rw [hM, cellOf, find_eq_of_mem_nodup hnd hm]
      rfl
    · intro u m hk
      rw [hM, cellOf, find_eq_none_of_not_mem hk]
      rfl
  case isFalse => cases h

/-- Rating rows used to witness claim C8. -/
def c8rows : List (ℕ × ℕ × ℚ) := [(1, 2, 3)]

/-- Matrix constructed by the pivot on c8rows. -/
def c8M : UIMatrix := ⟨[1], [2], cellOf c8rows⟩

/-- Witness for claim C8: concrete pivot of one rating row, whose cell at
the rated pair is the rating and at an unrated pair is 0. -/
theorem c8_matrix_cells_witness :
    (user_item_matrix c8rows = some c8M) ∧ c8M.cell 1 2 = 3 ∧ c8M.cell 1 1 = 0 := by
  have hpf : user_item_matrix c8rows = some c8M := by with_unfolding_all rfl
  exact ⟨hpf, (c8_matrix_cells c8rows c8M hpf).1 1 2 3 (by decide),
    (c8_matrix_cells c8rows c8M hpf).2 1 1 (by decide)⟩

/-- Claim C9 counterexample: the matrix builder is not total - a duplicated
(user, item) pair makes the pandas pivot raise ValueError (modeled by
none), so construction has an error condition. -/
theorem c9_duplicate_pair_fails :
    (user_item_matrix [(1, 1, (2 : ℚ)), (1, 1, 3)]).isSome = false := by
  decide

/-- Claim C9 as amended: the matrix builder succeeds exactly on rating rows
whose (user, item) pairs are duplicate-free (a duplicate pair raises
ValueError in pandas pivot), and the empty input yields the empty matrix. -/
theorem c9_pivot_totality :
    ∀ rows : List (ℕ × ℕ × ℚ),
      ((user_item_matrix rows).isSome ↔ (ratedKeys rows).Nodup) ∧
      user_item_matrix ([] : List (ℕ × ℕ × ℚ)) = some ⟨[], [], cellOf []⟩ := by
  intro rows
  constructor
  · unfold user_item_matrix
    split
    case isTrue hnd => simpa using hnd
    case isFalse hnd => simpa using hnd
  · rfl

/- Helper lemmas about membership and the ranking loops. -/

/-- Membership in a sorted deduplicated index is membership in the raw
list. -/
lemma mem_sortedDedup {x : ℕ} {l : List ℕ} : x ∈ sortedDedup l ↔ x ∈ l := by
  unfold sortedDedup
  rw [(List.perm_insertionSort _ l.dedup).mem_iff, List.mem_dedup]

/-- A user with no rating row is absent from the index of any successfully
constructed matrix. -/
lemma not_mem_users_of_no_rows {rows : List (ℕ × ℕ × ℚ)} {uid : ℕ} {M : UIMatrix}
    (h : ∀ r ∈ rows, r.1 ≠ uid) (hM : user_item_matrix rows = some M) :
    uid ∉ M.users := by
  unfold user_item_matrix at hM
  split at hM
  case isTrue =>
    cases Option.some.inj hM
    intro hmem
    obtain ⟨r, hr, hre⟩ := List.mem_map.mp (mem_sortedDedup.mp hmem)
    exact h r hr hre
  case isFalse => cases hM

/-- An absent user makes user-mode filtering fail. -/
lemma isErr_userModeRecM {M : UIMatrix} {uid : ℕ} (h : uid ∉ M.users) :
    isErr (userModeRecM M uid) = true := by
  unfold userModeRecM
  by_cases h1 : M.users = []
  · rw [if_pos h1]
    rfl
  · rw [if_neg h1, if_neg h]
    rfl

/-- An absent user makes item-mode filtering fail. -/
lemma isErr_itemModeRecM {M : UIMatrix} {uid : ℕ} (h : uid ∉ M.users) :
    isErr (itemModeRecM M uid) = true := by
  unfold itemModeRecM
  by_cases h1 : M.users = []
  · rw [if_pos h1]
    rfl
  · rw [if_neg h1, if_neg h]
    rfl

/-- Claim C6: a query user absent from the interaction matrix makes both
collaborative-filtering modes signal a failure (never a silent empty
result), and when the matrix is nonempty that failure is precisely the
KeyError of the pandas label lookup, modeled as notFound. -/
theorem c6_absent_user_not_found (M : UIMatrix) (uid : ℕ) (h : uid ∉ M.users) :
    isErr (userModeRecM M uid) = true ∧ isErr (itemModeRecM M uid) = true ∧
    (M.users ≠ [] →
      userModeRecM M uid = Except.error RecError.notFound ∧
      itemModeRecM M uid = Except.error RecError.notFound) := by
  refine ⟨isErr_userModeRecM h, isErr_itemModeRecM h, ?_⟩
  intro hne
  constructor
  · unfold userModeRecM
    rw [if_neg hne, if_neg h]
  · unfold itemModeRecM
    rw [if_neg hne, if_neg h]

/-- Matrix used to witness claim C6: one user with id 2, one movie. -/
def c6M : UIMatrix := ⟨[2], [1], fun _ _ => 1⟩

/-- Witness for claim C6: querying user 1, absent from a one-user matrix,
yields the notFound failure in both modes. -/
theorem c6_absent_user_not_found_witness :
    (1 ∉ c6M.users) ∧
    userModeRecM c6M 1 = Except.error RecError.notFound ∧
    itemModeRecM c6M 1 = Except.error RecError.notFound := by
  have h : 1 ∉ c6M.users := by decide
  exact ⟨h, ((c6_absent_user_not_found c6M 1 h).2.2 (by decide)).1,
    ((c6_absent_user_not_found c6M 1 h).2.2 (by decide)).2⟩

/-- Rating rows used for claim C5: user 2 rated movie 1; user 1 has zero
ratings. -/
def c5rows : List (ℕ × ℕ × ℚ) := [(2, 1, 5)]

/-- Claim C5 counterexample: for a user with zero ratings the similarity
ranker does not return an empty recommendation set - the user is missing
from the pivot index, so the pandas lookup raises KeyError (notFound) in
both modes. -/
theorem c5_zero_ratings_ranker_errors :
    userModeRec c5rows 1 = Except.error RecError.notFound ∧
    itemModeRec c5rows 1 = Except.error RecError.notFound ∧
    userModeRec c5rows 1 ≠ Except.ok (∅ : Finset ℕ) := by
  have h1 : userModeRec c5rows 1 = Except.error RecError.notFound := by
    with_unfolding_all rfl
  refine ⟨h1, by with_unfolding_all rfl, ?_⟩
  rw [h1]
  simp

/-- Claim C5 as amended: a query user with zero ratings is absent from the
interaction matrix, so the similarity ranker signals a failure (KeyError /
notFound, or the pivot and empty-matrix errors) rather than returning an
empty set, while the content-based scorer does return the zero preference
vector for the empty rating vector. -/
theorem c5_zero_ratings_behavior (rows : List (ℕ × ℕ × ℚ)) (uid g : ℕ)
    (grows : List (List ℚ)) (h : ∀ r ∈ rows, r.1 ≠ uid) :
    isErr (userModeRec rows uid) = true ∧ isErr (itemModeRec rows uid) = true ∧
    calculate_user_preference g [] grows = List.replicate g 0 := by
  refine ⟨?_, ?_, ?_⟩
  · unfold userModeRec
    cases hM : user_item_matrix rows with
    | none => rfl
    | some M => exact isErr_userModeRecM (not_mem_users_of_no_rows h hM)
  · unfold itemModeRec
    cases hM : user_item_matrix rows with
    | none => rfl
    | some M => exact isErr_itemModeRecM (not_mem_users_of_no_rows h hM)
  · unfold calculate_user_preference
    simp

/-- Witness for the amended claim C5, at the concrete rows where user 1 has
zero ratings. -/
theorem c5_zero_ratings_behavior_witness :
    (∀ r ∈ c5rows, r.1 ≠ 1) ∧
    (isErr (userModeRec c5rows 1) = true ∧ isErr (itemModeRec c5rows 1) = true ∧
      calculate_user_preference 3 [] [] = List.replicate 3 0) :=
  ⟨by decide, c5_zero_ratings_behavior c5rows 1 3 [] (by decide)⟩

/- Loop invariants for the exclusion of already-rated items. -/

/-- The user-mode loop never adds a movie of the excluded rated set. -/
lemma userLoop_not_rated (M : UIMatrix) (rated : Finset ℕ) (uid : ℕ) :
    ∀ (l : List ℕ) (acc : Finset ℕ), (∀ x ∈ acc, x ∉ rated) →
      ∀ m ∈ userLoop M rated uid l acc, m ∉ rated := by
  intro l
  induction l with
  | nil =>
    intro acc hacc m hm
    simp only [userLoop] at hm
    exact hacc m hm
  | cons u rest ih =>
    intro acc hacc m hm
    simp only [userLoop] at hm
    by_cases hu : u = uid
    · rw [if_pos hu] at hm
      exact ih acc hacc m hm
    · rw [if_neg hu] at hm
      have hacc' : ∀ x ∈ acc ∪ (user_rated_movies M u \ rated), x ∉ rated := by
        intro x hx
        rcases Finset.mem_union.mp hx with h1 | h2
        · exact hacc x h1
        · exact (Finset.mem_sdiff.mp h2).2
      by_cases hc : 5 ≤ (acc ∪ (user_rated_movies M u \ rated)).card
      · rw [if_pos hc] at hm
        exact hacc' m hm
      · rw [if_neg hc] at hm
        exact ih _ hacc' m hm

/-- The inner item-mode loop never adds a movie of the rated list. -/
lemma itemLoopInner_not_rated (rated : List ℕ) :
    ∀ (l : List ℕ) (acc : Finset ℕ), (∀ x ∈ acc, x ∉ rated) →
      ∀ m ∈ itemLoopInner rated l acc, m ∉ rated := by
  intro l
  induction l with
  | nil =>
    intro acc hacc m hm
    simp only [itemLoopInner] at hm
    exact hacc m hm
  | cons a rest ih =>
    intro acc hacc m hm
    simp only [itemLoopInner] at hm
    have hacc' : ∀ x ∈ (if a ∈ rated then acc else insert a acc), x ∉ rated := by
      split
      · exact hacc
      · intro x hx
        rcases Finset.mem_insert.mp hx with h1 | h2
        · subst h1
          assumption
        · exact hacc x h2
    by_cases hc : 5 ≤ (if a ∈ rated then acc else insert a acc).card
    · rw [if_pos hc] at hm
      exact hacc' m hm
    · rw [if_neg hc] at hm
      exact ih _ hacc' m hm

/-- The outer item-mode loop never adds a movie of the rated list. -/
lemma itemLoopOuter_not_rated (M : UIMatrix) (rated : List ℕ) :
    ∀ (l : List ℕ) (acc : Finset ℕ), (∀ x ∈ acc, x ∉ rated) →
      ∀ m ∈ itemLoopOuter M rated l acc, m ∉ rated := by
  intro l
  induction l with
  | nil =>
    intro acc hacc m hm
    simp only [itemLoopOuter] at hm
    exact hacc m hm
  | cons rm rest ih =>
    intro acc hacc m hm
    simp only [itemLoopOuter] at hm
    have hacc' := itemLoopInner_not_rated rated (similar_movies M rm) acc hacc
    by_cases hc : 5 ≤ (itemLoopInner rated (similar_movies M rm) acc).card
    · rw [if_pos hc] at hm
      exact hacc' m hm
    · rw [if_neg hc] at hm
      exact ih _ hacc' m hm

/-- Claim C7: in both collaborative-filtering modes, no movie of the query
user's rated (excluded) set ever appears in the returned recommendation
set (the set-difference on line 81 and the membership filter on line 113 of
collab_filter_rec.py). -/
theorem c7_no_rated_item_recommended (M : UIMatrix) (uid m : ℕ) :
    (recMem (userModeRecM M uid) m → m ∉ user_rated_movies M uid) ∧
    (recMem (itemModeRecM M uid) m → m ∉ user_rated_movies M uid) := by
  constructor
  · intro hm
    unfold userModeRecM at hm
    split_ifs at hm with h1 h2
    · exact hm.elim
    · simp only [recMem] at hm
      exact userLoop_not_rated M _ uid _ ∅ (by simp) m hm
    · exact hm.elim
  · intro hm
    unfold itemModeRecM at hm
    split_ifs at hm with h1 h2
    · exact hm.elim
    · simp only [recMem] at hm
      have hout := itemLoopOuter_not_rated M (rated_movies M uid) (rated_movies M uid) ∅
        (by simp) m hm
      intro hf
      exact hout (by simpa [user_rated_movies, rated_movies] using hf)
    · exact hm.elim

/-- Decidability of recommendation membership, used for concrete witnesses. -/
instance (e : Except RecError (Finset ℕ)) (m : ℕ) : Decidable (recMem e m) :=
  match e with
  | Except.error _ => isFalse (fun h => h)
  | Except.ok s => inferInstanceAs (Decidable (m ∈ s))

/-- Matrix used to witness claim C7: user 1 rated movie 1, user 2 rated
movie 2. -/
def c7M : UIMatrix :=
  ⟨[1, 2], [1, 2], fun u m =>
    if u = 1 ∧ m = 1 then 1 else if u = 2 ∧ m = 2 then 1 else 0⟩

/-- Witness for claim C7: on the concrete two-user matrix, movie 2 is
recommended to user 1 and is indeed outside user 1's rated set. -/
theorem c7_no_rated_item_recommended_witness :
    recMem (userModeRecM c7M 1) 2 ∧ 2 ∉ user_rated_movies c7M 1 := by
  have h : recMem (userModeRecM c7M 1) 2 := of_decide_eq_true (by with_unfolding_all rfl)
  exact ⟨h, (c7_no_rated_item_recommended c7M 1 2).1 h⟩

/- Cardinality bounds of the ranking loops. -/

/-- Every value of a mapped list bounds below its foldr maximum. -/
lemma le_foldr_max (f : ℕ → ℕ) :
    ∀ (l : List ℕ) (x : ℕ), x ∈ l → f x ≤ (l.map f).foldr max 0 := by
  intro l
  induction l with
  | nil =>
    intro x hx
    cases hx
  | cons a tl ih =>
    intro x hx
    simp only [List.map_cons, List.foldr_cons]
    rcases List.mem_cons.mp hx with h | h
    · subst h
      exact le_max_left _ _
    · exact (ih x h).trans (le_max_right _ _)

/-- The user-mode loop grows by at most one whole batch past the cutoff:
starting below 5, it ends at no more than 4 plus the largest batch bound. -/
lemma userLoop_card_le (M : UIMatrix) (rated : Finset ℕ) (uid B : ℕ) :
    ∀ (l : List ℕ) (acc : Finset ℕ),
      (∀ u ∈ l, (user_rated_movies M u \ rated).card ≤ B) → acc.card ≤ 4 →
      (userLoop M rated uid l acc).card ≤ 4 + B := by
  intro l
  induction l with
  | nil =>
    intro acc _ hacc
    simp only [userLoop]
    omega
  | cons u rest ih =>
    intro acc hl hacc
    simp only [userLoop]
    by_cases hu : u = uid
    · rw [if_pos hu]
      exact ih acc (fun x hx => hl x (List.mem_cons_of_mem _ hx)) hacc
    · rw [if_neg hu]
      have hbatch : (user_rated_movies M u \ rated).card ≤ B :=
        hl u (List.mem_cons_self _ _)
      have hcard : (acc ∪ (user_rated_movies M u \ rated)).card ≤ 4 + B := by
        have := Finset.card_union_le acc (user_rated_movies M u \ rated)
        omega
      by_cases hc : 5 ≤ (acc ∪ (user_rated_movies M u \ rated)).card
      · rw [if_pos hc]
        exact hcard
      · rw [if_neg hc]
        exact ih _ (fun x hx => hl x (List.mem_cons_of_mem _ hx)) (by omega)

/-- The inner item-mode loop checks the cutoff after each single insertion,
so it never exceeds 5 elements. -/
lemma itemLoopInner_card_le (rated : List ℕ) :
    ∀ (l : List ℕ) (acc : Finset ℕ), acc.card ≤ 4 →
      (itemLoopInner rated l acc).card ≤ 5 := by
  intro l
  induction l with
  | nil =>
    intro acc hacc
    simp only [itemLoopInner]
    omega
  | cons a rest ih =>
    intro acc hacc
    simp only [itemLoopInner]
    have h5 : (if a ∈ rated then acc else insert a acc).card ≤ 5 := by
      split
      · omega
      · have := Finset.card_insert_le a acc
        omega
    by_cases hc : 5 ≤ (if a ∈ rated then acc else insert a acc).card
    · rw [if_pos hc]
      exact h5
    · rw [if_neg hc]
      exact ih _ (by omega)

/-- The outer item-mode loop preserves the 5-element bound. -/
lemma itemLoopOuter_card_le (M : UIMatrix) (rated : List ℕ) :
    ∀ (l : List ℕ) (acc : Finset ℕ), acc.card ≤ 4 →
      (itemLoopOuter M rated l acc).card ≤ 5 := by
  intro l
  induction l with
  | nil =>
    intro acc hacc
    simp only [itemLoopOuter]
    omega
  | cons rm rest ih =>
    intro acc hacc
    simp only [itemLoopOuter]
    have h5 := itemLoopInner_card_le rated (similar_movies M rm) acc hacc
    by_cases hc : 5 ≤ (itemLoopInner rated (similar_movies M rm) acc).card
    · rw [if_pos hc]
      exact h5
    · rw [if_neg hc]
      exact ih _ (by omega)

/-- Claim C1 as amended: the item-mode result set never exceeds 5 items,
while the user-mode loop only stops after adding a whole similar user's
batch, so its result set is bounded by 4 plus the largest single batch
(and can therefore exceed 5). -/
theorem c1_cutoff_bounds (M : UIMatrix) (uid : ℕ) :
    recCard (itemModeRecM M uid) ≤ 5 ∧
    recCard (userModeRecM M uid) ≤ 4 + maxBatch M uid := by
  constructor
  · unfold itemModeRecM
    split_ifs with h1 h2
    · simp [recCard]
    · simp only [recCard]
      exact itemLoopOuter_card_le M _ _ ∅ (by simp)
    · simp [recCard]
  · unfold userModeRecM
    split_ifs with h1 h2
    · simp [recCard]
    · simp only [recCard]
      refine userLoop_card_le M _ uid (maxBatch M uid) _ ∅ ?_ (by simp)
      intro u hu
      have hmem : u ∈ M.users := (List.perm_insertionSort _ M.users).mem_iff.mp hu
      have hb := le_foldr_max
        (fun v => (user_rated_movies M v \ user_rated_movies M uid).card) M.users u hmem
      simpa [maxBatch] using hb
    · simp [recCard]

/-- Rating rows used for the claim C1 counterexample: user 1 rated movies 1
and 2; user 2 rated movies 1 through 9 and is therefore similar to user 1
with a batch of 7 unrated movies. -/
def c1rows : List (ℕ × ℕ × ℚ) :=
  [(1, 1, 3), (1, 2, 4), (2, 1, 1), (2, 2, 1), (2, 3, 1), (2, 4, 1), (2, 5, 1),
   (2, 6, 1), (2, 7, 1), (2, 8, 1), (2, 9, 1)]

/-- Claim C1 counterexample: the user-mode recommendation set can exceed 5
items, because a whole similar user's batch is added before the cutoff is
checked - here it returns 7 movies. -/
theorem c1_user_mode_exceeds_five :
    isErr (userModeRec c1rows 1) = false ∧ ¬ recCard (userModeRec c1rows 1) ≤ 5 := by
  constructor
  · with_unfolding_all rfl
  · have h : recCard (userModeRec c1rows 1) = 7 := by with_unfolding_all rfl
    omega

/- Content-based scorer: preference vector, softmax and cache. -/

/-- np.clip into the range 0 to 5 never goes below 0. -/
lemma clamp_nonneg (x : ℚ) : 0 ≤ clamp x := le_max_left 0 _

/-- A list of nonnegative rationals with zero sum is all zeros. -/
lemma sum_eq_zero_all {l : List ℚ} (hn : ∀ x ∈ l, 0 ≤ x) (hs : l.sum = 0) :
    ∀ x ∈ l, x = 0 := by
  induction l with
  | nil =>
    intro x hx
    cases hx
  | cons a tl ih =>
    intro x hx
    have hta : 0 ≤ a := hn a (List.mem_cons_self _ _)
    have htl : 0 ≤ tl.sum :=
      List.sum_nonneg (fun y hy => hn y (List.mem_cons_of_mem _ hy))
    have hsum : a + tl.sum = 0 := by simpa using hs
    have ha : a = 0 := by linarith
    have hts : tl.sum = 0 := by linarith
    rcases List.mem_cons.mp hx with h | h
    · rw [h]
      exact ha
    · exact ih (fun y hy => hn y (List.mem_cons_of_mem _ hy)) hts x h

/-- The weighted genre sum vanishes when all clamped ratings vanish. -/
lemma wsum_eq_zero_of_zero {cr : List ℚ} (h : ∀ x ∈ cr, x = 0) :
    ∀ (rows : List (List ℚ)) (j : ℕ), wsum cr rows j = 0 := by
  induction cr with
  | nil =>
    intro rows j
    rfl
  | cons c tl ih =>
    intro rows j
    cases rows with
    | nil => rfl
    | cons row rs =>
      have hstep : wsum (c :: tl) (row :: rs) j = c * row.getD j 0 + wsum tl rs j := by
        simp [wsum]
      rw [hstep, h c (List.mem_cons_self _ _), zero_mul, zero_add]
      exact ih (fun x hx => h x (List.mem_cons_of_mem _ hx)) rs j

/-- Claim C4 counterexample: a single rated movie with no genres gives a
zero preference vector although the clamped rating sum is 5, not 0 - the
claimed equivalence fails in the only-if direction. -/
theorem c4_zero_pref_with_positive_sum :
    calculate_user_preference 1 [5] [[0]] = List.replicate 1 0 ∧
    0 < (([5] : List ℚ).map clamp).sum := by
  constructor
  · with_unfolding_all rfl
  · exact of_decide_eq_true (by with_unfolding_all rfl)

/-- Claim C4 as amended: the preference vector is the zero vector exactly
when every component of the weighted genre sum (clamped ratings dotted with
the genre columns) is zero; in particular it is zero whenever the clamped
rating sum is 0, but it can also be zero with a positive rating sum when
the rated movies carry no genres. -/
theorem c4_zero_pref_iff (g : ℕ) (ratings : List ℚ) (rows : List (List ℚ)) :
    (calculate_user_preference g ratings rows = List.replicate g 0 ↔
      ∀ j ∈ List.range g, wsum (ratings.map clamp) rows j = 0) ∧
    ((ratings.map clamp).sum = 0 →
      calculate_user_preference g ratings rows = List.replicate g 0) := by
  have hnn : ∀ x ∈ ratings.map clamp, 0 ≤ x := by
    intro x hx
    obtain ⟨y, _, hy⟩ := List.mem_map.mp hx
    rw [← hy]
    exact clamp_nonneg y
  by_cases hpos : 0 < (ratings.map clamp).sum
  · have hcalc : calculate_user_preference g ratings rows =
        ((List.range g).map (fun j => wsum (ratings.map clamp) rows j)).map
          (fun x => x / (ratings.map clamp).sum) := by
      simp only [calculate_user_preference]
      rw [if_pos hpos]
    have hsne : (ratings.map clamp).sum ≠ 0 := ne_of_gt hpos
    constructor
    · rw [hcalc, List.eq_replicate_iff]
      constructor
      · rintro ⟨-, hall⟩ j hj
        have hmem : wsum (ratings.map clamp) rows j / (ratings.map clamp).sum ∈
            ((List.range g).map (fun j => wsum (ratings.map clamp) rows j)).map
              (fun x => x / (ratings.map clamp).sum) :=
          List.mem_map_of_mem _ (List.mem_map_of_mem _ hj)
        have hz := hall _ hmem
        rcases div_eq_zero_iff.mp hz with h0 | h0
        · exact h0
        · exact absurd h0 hsne
      · intro hz
        refine ⟨by simp, ?_⟩
        intro b hb
        obtain ⟨x, hx, hbx⟩ := List.mem_map.mp hb
        obtain ⟨j, hj, hxj⟩ := List.mem_map.mp hx
        rw [← hbx, ← hxj, hz j hj, zero_div]
    · intro hs
      exact absurd hpos (by rw [hs]; exact lt_irrefl 0)
  · have hs0 : (ratings.map clamp).sum = 0 :=
      le_antisymm (not_lt.mp hpos) (List.sum_nonneg hnn)
    have hall : ∀ x ∈ ratings.map clamp, x = 0 := sum_eq_zero_all hnn hs0
    have hres : calculate_user_preference g ratings rows = List.replicate g 0 := by
      simp only [calculate_user_preference]
      rw [if_neg hpos]
    refine ⟨?_, fun _ => hres⟩
    rw [hres]
    exact ⟨fun _ j _ => wsum_eq_zero_of_zero hall rows j, fun _ => rfl⟩

/-- Witness for the amended claim C4: a zero rating gives zero clamped sum
and the zero preference vector. -/
theorem c4_zero_pref_iff_witness :
    (([0] : List ℚ).map clamp).sum = 0 ∧
    calculate_user_preference 1 [0] [[1]] = List.replicate 1 0 := by
  have h : (([0] : List ℚ).map clamp).sum = 0 := of_decide_eq_true (by with_unfolding_all rfl)
  exact ⟨h, (c4_zero_pref_iff 1 [0] [[1]]).2 h⟩

/-- A binary genre row reads 0 or 1 at every column index. -/
lemma getD_binary {row : List ℚ} (hb : ∀ x ∈ row, x = 0 ∨ x = 1) (j : ℕ) :
    row.getD j 0 = 0 ∨ row.getD j 0 = 1 := by
  by_cases hj : j < row.length
  · rw [List.getD_eq_getElem row 0 hj]
    exact hb _ (List.getElem_mem hj)
  · rw [List.getD_eq_default row 0 (le_of_not_lt hj)]
    exact Or.inl rfl

/-- With nonnegative weights and binary genre columns, the weighted genre
sum lies between 0 and the weight sum. -/
lemma wsum_bounds :
    ∀ (cr : List ℚ) (rows : List (List ℚ)),
      (∀ x ∈ cr, 0 ≤ x) → (∀ row ∈ rows, ∀ x ∈ row, x = 0 ∨ x = 1) →
      ∀ j, 0 ≤ wsum cr rows j ∧ wsum cr rows j ≤ cr.sum := by
  intro cr
  induction cr with
  | nil =>
    intro rows _ _ j
    exact ⟨le_refl 0, le_refl 0⟩
  | cons c tl ih =>
    intro rows hc hb j
    cases rows with
    | nil =>
      have h0 : wsum (c :: tl) [] j = 0 := rfl
      rw [h0]
      exact ⟨le_refl 0, List.sum_nonneg hc⟩
    | cons row rs =>
      have hstep : wsum (c :: tl) (row :: rs) j = c * row.getD j 0 + wsum tl rs j := by
        simp [wsum]
      have hcd : 0 ≤ c := hc c (List.mem_cons_self _ _)
      have hterm : 0 ≤ c * row.getD j 0 ∧ c * row.getD j 0 ≤ c := by
        rcases getD_binary (hb row (List.mem_cons_self _ _)) j with h0 | h1
        · rw [h0, mul_zero]
          exact ⟨le_refl 0, hcd⟩
        · rw [h1, mul_one]
          exact ⟨hcd, le_refl c⟩
      have hih := ih rs (fun x hx => hc x (List.mem_cons_of_mem _ hx))
        (fun r hr => hb r (List.mem_cons_of_mem _ hr)) j
      rw [hstep, List.sum_cons]
      constructor
      · exact add_nonneg hterm.1 hih.1
      · linarith [hterm.2, hih.2]

/-- Claim C10: for a binary genre matrix, every component of the returned
preference vector lies in the closed interval from 0 to 1 - each is a
clamped-rating-weighted average of a binary column. -/
theorem c10_preference_in_unit_interval (g : ℕ) (ratings : List ℚ)
    (rows : List (List ℚ)) (hb : ∀ row ∈ rows, ∀ x ∈ row, x = 0 ∨ x = 1) :
    ∀ p ∈ calculate_user_preference g ratings rows, 0 ≤ p ∧ p ≤ 1 := by
  intro p hp
  have hnn : ∀ x ∈ ratings.map clamp, 0 ≤ x := by
    intro x hx
    obtain ⟨y, _, hy⟩ := List.mem_map.mp hx
    rw [← hy]
    exact clamp_nonneg y
  by_cases hpos : 0 < (ratings.map clamp).sum
  · have hcalc : calculate_user_preference g ratings rows =
        ((List.range g).map (fun j => wsum (ratings.map clamp) rows j)).map
          (fun x => x / (ratings.map clamp).sum) := by
      simp only [calculate_user_preference]
      rw [if_pos hpos]
    rw [hcalc] at hp
    obtain ⟨x, hx, hxp⟩ := List.mem_map.mp hp
    obtain ⟨j, _, hjx⟩ := List.mem_map.mp hx
    have hw := wsum_bounds (ratings.map clamp) rows hnn hb j
    rw [← hxp, ← hjx]
    constructor
    · exact div_nonneg hw.1 (le_of_lt hpos)
    · rw [div_le_one hpos]
      exact hw.2
  · have hcalc : calculate_user_preference g ratings rows = List.replicate g 0 := by
      simp only [calculate_user_preference]
      rw [if_neg hpos]
    rw [hcalc] at hp
    rw [List.eq_of_mem_replicate hp]
    norm_num

/-- Witness for claim C10 at one rating 3 of a movie of the single genre. -/
theorem c10_preference_in_unit_interval_witness :
    (∀ row ∈ [[(1 : ℚ)]], ∀ x ∈ row, x = 0 ∨ x = 1) ∧
    ∀ p ∈ calculate_user_preference 1 [3] [[1]], 0 ≤ p ∧ p ≤ 1 := by
  have hb : ∀ row ∈ [[(1 : ℚ)]], ∀ x ∈ row, x = 0 ∨ x = 1 := by decide
  exact ⟨hb, c10_preference_in_unit_interval 1 [3] [[1]] hb⟩

/-- Shifting every exponent multiplies the exponential sum by the
exponential of the negated shift. -/
lemma sum_exp_shift (s : List ℚ) (c : ℝ) :
    (s.map (fun y : ℚ => Real.exp ((y : ℝ) - c))).sum =
      Real.exp (-c) * (s.map (fun y : ℚ => Real.exp (y : ℝ))).sum := by
  induction s with
  | nil => simp
  | cons a tl ih =>
    rw [List.map_cons, List.map_cons, List.sum_cons, List.sum_cons, ih,
      sub_eq_add_neg, Real.exp_add]
    ring

/-- Claim C2 in exact arithmetic: the distribution computed by the source's
naive softmax (np.exp with no shift, content_based_rec.py lines 158-159)
coincides, over the real numbers, with the max-shifted formula
exp(s i - max s) / sum exp(s j - max s).  The source itself never subtracts
the maximum, so in float64 the two computations differ as soon as a score
overflows np.exp; this identity is exact-arithmetic only. -/
theorem c2_softmax_shift_identity (s : List ℚ) (h : s ≠ []) :
    softmax s = s.map (fun x : ℚ =>
      Real.exp ((x : ℝ) - (maxScore s : ℝ)) /
      (s.map (fun y : ℚ => Real.exp ((y : ℝ) - (maxScore s : ℝ)))).sum) := by
  unfold softmax
  refine List.map_congr_left ?_
  intro x hx
  rw [sum_exp_shift s (maxScore s)]
  rw [show Real.exp ((x : ℝ) - (maxScore s : ℝ)) =
      Real.exp (-(maxScore s : ℝ)) * Real.exp (x : ℝ) by
    rw [sub_eq_add_neg, Real.exp_add, mul_comm]]
  rw [mul_div_mul_left _ _ (Real.exp_ne_zero _)]

/-- Witness for claim C2 on the concrete score vector with entries 1 and
2. -/
theorem c2_softmax_shift_identity_witness :
    (([1, 2] : List ℚ) ≠ []) ∧
    softmax [1, 2] = ([1, 2] : List ℚ).map (fun x : ℚ =>
      Real.exp ((x : ℝ) - ((maxScore [1, 2] : ℚ) : ℝ)) /
      (([1, 2] : List ℚ).map (fun y : ℚ =>
        Real.exp ((y : ℝ) - ((maxScore [1, 2] : ℚ) : ℝ)))).sum) :=
  ⟨by decide, c2_softmax_shift_identity [1, 2] (by decide)⟩

/-- Claim C3: the caching contract of generate_recommendation is violated
by the source.  The executemany on content_based_rec.py line 163 inserts
the rows of the variable recommendations - the empty SELECT result of the
branch - so the store is returned unchanged on every call and nothing is
ever cached; and when cached rows do exist, the returned vector is the
mov_id column (rec index 1), not the stored rec_score values. -/
theorem c3_cache_never_written (uid : ℕ) (pref : List ℚ) (rows : List (List ℚ))
    (store : List (ℕ × ℕ × ℚ)) :
    (generate_recommendation uid pref rows store).2 = store ∧
    (selectCached store uid ≠ [] →
      (generate_recommendation uid pref rows store).1 =
        (selectCached store uid).map (fun r => ((r.2.1 : ℕ) : ℝ))) := by
  unfold generate_recommendation
  by_cases h : selectCached store uid = []
  · constructor
    · rw [if_pos h, h]
      rfl
    · intro hne
      exact absurd h hne
  · constructor
    · rw [if_neg h]
    · intro _
      rw [if_neg h]

/-- Cache store used to witness claim C3: one cached row for user 1 with
mov_id 7 and score one half. -/
def c3store : List (ℕ × ℕ × ℚ) := [(1, 7, 1/2)]

/-- Witness for claim C3: with one cached row, the call leaves the store
unchanged and returns the mov_id column. -/
theorem c3_cache_never_written_witness :
    (selectCached c3store 1 ≠ []) ∧
    (generate_recommendation 1 [] [] c3store).2 = c3store ∧
    (generate_recommendation 1 [] [] c3store).1 =
      (selectCached c3store 1).map (fun r => ((r.2.1 : ℕ) : ℝ)) := by
  have h : selectCached c3store 1 ≠ [] := of_decide_eq_true (by with_unfolding_all rfl)
  exact ⟨h, (c3_cache_never_written 1 [] [] c3store).1,
    (c3_cache_never_written 1 [] [] c3store).2 h⟩

/- Faithfulness of the decidable similarity comparator: simGE decides
exactly the comparison of the real-valued cosine similarities computed by
sklearn cosine_similarity, where cos x y = dot x y / (sqrt (dot x x) *
sqrt (dot y y)) and a zero vector yields similarity 0 (here automatic from
division by zero being zero). -/

/-- Unfolding of the dot product on cons cells. -/
lemma dotp_cons (x y : ℚ) (v w : List ℚ) :
    dotp (x :: v) (y :: w) = x * y + dotp v w := by
  simp [dotp]

/-- The squared norm is a sum of squares, hence nonnegative. -/
lemma sqnorm_nonneg (v : List ℚ) : 0 ≤ sqnorm v := by
  induction v with
  | nil => exact le_refl 0
  | cons x t ih =>
    have h : sqnorm (x :: t) = x * x + sqnorm t := dotp_cons x x t t
    rw [h]
    exact add_nonneg (mul_self_nonneg x) ih

/-- A vector of squared norm zero is the zero vector. -/
lemma eq_zero_of_sqnorm_eq_zero {v : List ℚ} (h : sqnorm v = 0) :
    ∀ x ∈ v, x = 0 := by
  induction v with
  | nil =>
    intro x hx
    cases hx
  | cons y t ih =>
    intro x hx
    have hc : sqnorm (y :: t) = y * y + sqnorm t := dotp_cons y y t t
    rw [hc] at h
    have h1 : 0 ≤ y * y := mul_self_nonneg y
    have h2 : 0 ≤ sqnorm t := sqnorm_nonneg t
    have hy : y * y = 0 := by linarith
    have ht : sqnorm t = 0 := by linarith
    rcases List.mem_cons.mp hx with hh | hh
    · rw [hh]
      exact mul_self_eq_zero.mp hy
    · exact ih ht x hh

/-- The dot product with a zero left vector vanishes. -/
lemma dotp_zero_left {a : List ℚ} (ha : ∀ x ∈ a, x = 0) :
    ∀ b : List ℚ, dotp a b = 0 := by
  induction a with
  | nil =>
    intro b
    rfl
  | cons x t ih =>
    intro b
    cases b with
    | nil => rfl
    | cons y s =>
      rw [dotp_cons, ha x (List.mem_cons_self _ _), zero_mul, zero_add]
      exact ih (fun z hz => ha z (List.mem_cons_of_mem _ hz)) s

/-- The dot product with a zero right vector vanishes. -/
lemma dotp_zero_right {b : List ℚ} (hb : ∀ x ∈ b, x = 0) :
    ∀ a : List ℚ, dotp a b = 0 := by
  induction b with
  | nil =>
    intro a
    cases a <;> rfl
  | cons y s ih =>
    intro a
    cases a with
    | nil => rfl
    | cons x t =>
      rw [dotp_cons, hb y (List.mem_cons_self _ _), mul_zero, zero_add]
      exact ih (fun z hz => hb z (List.mem_cons_of_mem _ hz)) t

/-- Dividing out the shared positive factor sqrt A of the two cosine
denominators. -/
lemma div_sqrt_le_div_sqrt_iff {sb sc A B C : ℝ} (hA : 0 < A) (hB : 0 < B)
    (hC : 0 < C) :
    sc / (Real.sqrt A * Real.sqrt C) ≤ sb / (Real.sqrt A * Real.sqrt B) ↔
      sc * Real.sqrt B ≤ sb * Real.sqrt C := by
  have hsA : 0 < Real.sqrt A := Real.sqrt_pos.mpr hA
  have hsB : 0 < Real.sqrt B := Real.sqrt_pos.mpr hB
  have hsC : 0 < Real.sqrt C := Real.sqrt_pos.mpr hC
  rw [div_le_div_iff (mul_pos hsA hsC) (mul_pos hsA hsB)]
  rw [show sc * (Real.sqrt A * Real.sqrt B) = Real.sqrt A * (sc * Real.sqrt B) by ring,
    show sb * (Real.sqrt A * Real.sqrt C) = Real.sqrt A * (sb * Real.sqrt C) by ring]
  exact mul_le_mul_left hsA

/-- Squaring a comparison of nonnegative sqrt-weighted terms. -/
lemma mul_sqrt_le_mul_sqrt_iff {x y B C : ℝ} (hC : 0 ≤ C)
    (hx : 0 ≤ x) (hy : 0 ≤ y) :
    x * Real.sqrt B ≤ y * Real.sqrt C ↔ x ^ 2 * B ≤ y ^ 2 * C := by
  rw [show x * Real.sqrt B = Real.sqrt (x ^ 2 * B) by
      rw [Real.sqrt_mul (sq_nonneg x), Real.sqrt_sq hx],
    show y * Real.sqrt C = Real.sqrt (y ^ 2 * C) by
      rw [Real.sqrt_mul (sq_nonneg y), Real.sqrt_sq hy]]
  exact Real.sqrt_le_sqrt_iff (mul_nonneg (sq_nonneg y) hC)

/-- The decidable comparator simGE decides exactly the real cosine
similarity comparison sim(a, c) at most sim(a, b), with sklearn's
convention that a zero vector has similarity 0 (realized here by Lean's
division by zero). -/
lemma simGE_iff_cosine (a b c : List ℚ) :
    simGE a b c = true ↔
      ((dotp a c : ℝ) / (Real.sqrt ((sqnorm a : ℚ) : ℝ) * Real.sqrt ((sqnorm c : ℚ) : ℝ)) ≤
       (dotp a b : ℝ) / (Real.sqrt ((sqnorm a : ℚ) : ℝ) * Real.sqrt ((sqnorm b : ℚ) : ℝ))) := by
  simp only [simGE]
  split_ifs with h1 h2 h3 h4 h5 h6 h7
  · have hab : dotp a b = 0 := dotp_zero_left (eq_zero_of_sqnorm_eq_zero h1) b
    have hac : dotp a c = 0 := dotp_zero_left (eq_zero_of_sqnorm_eq_zero h1) c
    simp [hab, hac]
  · have hab : dotp a b = 0 := dotp_zero_right (eq_zero_of_sqnorm_eq_zero h2) a
    have hac : dotp a c = 0 := dotp_zero_right (eq_zero_of_sqnorm_eq_zero h3) a
    simp [hab, hac]
  · have hApos : (0 : ℝ) < ((sqnorm a : ℚ) : ℝ) := by
      exact_mod_cast lt_of_le_of_ne (sqnorm_nonneg a) (Ne.symm h1)
    have hCpos : (0 : ℝ) < ((sqnorm c : ℚ) : ℝ) := by
      exact_mod_cast lt_of_le_of_ne (sqnorm_nonneg c) (Ne.symm h3)
    have hsA : 0 < Real.sqrt ((sqnorm a : ℚ) : ℝ) := Real.sqrt_pos.mpr hApos
    have hsC : 0 < Real.sqrt ((sqnorm c : ℚ) : ℝ) := Real.sqrt_pos.mpr hCpos
    have hab : dotp a b = 0 := dotp_zero_right (eq_zero_of_sqnorm_eq_zero h2) a
    simp only [decide_eq_true_eq, hab, Rat.cast_zero, zero_div]
    rw [div_le_iff (mul_pos hsA hsC), zero_mul]
    exact Rat.cast_nonpos.symm
  · have hApos : (0 : ℝ) < ((sqnorm a : ℚ) : ℝ) := by
      exact_mod_cast lt_of_le_of_ne (sqnorm_nonneg a) (Ne.symm h1)
    have hBpos : (0 : ℝ) < ((sqnorm b : ℚ) : ℝ) := by
      exact_mod_cast lt_of_le_of_ne (sqnorm_nonneg b) (Ne.symm h2)
    have hsA : 0 < Real.sqrt ((sqnorm a : ℚ) : ℝ) := Real.sqrt_pos.mpr hApos
    have hsB : 0 < Real.sqrt ((sqnorm b : ℚ) : ℝ) := Real.sqrt_pos.mpr hBpos
    have hac : dotp a c = 0 := dotp_zero_right (eq_zero_of_sqnorm_eq_zero h4) a
    simp only [decide_eq_true_eq, hac, Rat.cast_zero, zero_div]
    rw [le_div_iff (mul_pos hsA hsB), zero_mul]
    exact Rat.cast_nonneg.symm
  all_goals
    have hApos : (0 : ℝ) < ((sqnorm a : ℚ) : ℝ) := by
      exact_mod_cast lt_of_le_of_ne (sqnorm_nonneg a) (Ne.symm h1)
    have hBpos : (0 : ℝ) < ((sqnorm b : ℚ) : ℝ) := by
      exact_mod_cast lt_of_le_of_ne (sqnorm_nonneg b) (Ne.symm h2)
    have hCpos : (0 : ℝ) < ((sqnorm c : ℚ) : ℝ) := by
      exact_mod_cast lt_of_le_of_ne (sqnorm_nonneg c) (Ne.symm h4)
    rw [div_sqrt_le_div_sqrt_iff hApos hBpos hCpos]
  · have hsb : (0 : ℝ) ≤ ((dotp a b : ℚ) : ℝ) := by exact_mod_cast h5
    have hsc : (0 : ℝ) ≤ ((dotp a c : ℚ) : ℝ) := by exact_mod_cast h6
    rw [mul_sqrt_le_mul_sqrt_iff (le_of_lt hCpos) hsc hsb]
    simp only [decide_eq_true_eq]
    constructor
    · intro h
      exact_mod_cast h
    · intro h
      exact_mod_cast h
  · have hsc : ((dotp a c : ℚ) : ℝ) ≤ 0 := by
      exact_mod_cast le_of_lt (lt_of_not_le h6)
    simp only [true_iff]
    have hL : ((dotp a c : ℚ) : ℝ) * Real.sqrt ((sqnorm b : ℚ) : ℝ) ≤ 0 := by
      have := mul_le_mul_of_nonneg_right hsc (Real.sqrt_nonneg ((sqnorm b : ℚ) : ℝ))
      simpa using this
    have hR : 0 ≤ ((dotp a b : ℚ) : ℝ) * Real.sqrt ((sqnorm c : ℚ) : ℝ) := by
      have hsb : (0 : ℝ) ≤ ((dotp a b : ℚ) : ℝ) := by exact_mod_cast h5
      exact mul_nonneg hsb (Real.sqrt_nonneg _)
    linarith
  · have hsb : ((dotp a b : ℚ) : ℝ) < 0 := by
      exact_mod_cast lt_of_not_le h5
    have hsc : (0 : ℝ) ≤ ((dotp a c : ℚ) : ℝ) := by exact_mod_cast h7
    simp only [false_iff, not_le]
    have hR : ((dotp a b : ℚ) : ℝ) * Real.sqrt ((sqnorm c : ℚ) : ℝ) < 0 :=
      mul_neg_of_neg_of_pos hsb (Real.sqrt_pos.mpr hCpos)
    have hL : 0 ≤ ((dotp a c : ℚ) : ℝ) * Real.sqrt ((sqnorm b : ℚ) : ℝ) :=
      mul_nonneg hsc (Real.sqrt_nonneg _)
    linarith
  · have hsb : ((dotp a b : ℚ) : ℝ) < 0 := by
      exact_mod_cast lt_of_not_le h5
    have hsc : ((dotp a c : ℚ) : ℝ) < 0 := by
      exact_mod_cast lt_of_not_le h7
    have key := mul_sqrt_le_mul_sqrt_iff (x := -((dotp a b : ℚ) : ℝ))
      (y := -((dotp a c : ℚ) : ℝ)) (B := ((sqnorm c : ℚ) : ℝ)) (C := ((sqnorm b : ℚ) : ℝ))
      (le_of_lt hBpos) (by linarith) (by linarith)
    rw [neg_sq, neg_sq] at key
    simp only [decide_eq_true_eq]
    constructor
    · intro hq
      have hq2 : ((dotp a b : ℚ) : ℝ) ^ 2 * ((sqnorm c : ℚ) : ℝ) ≤
          ((dotp a c : ℚ) : ℝ) ^ 2 * ((sqnorm b : ℚ) : ℝ) := by exact_mod_cast hq
      have h2 := key.mpr hq2
      linarith
    · intro hr
      have h2 : -((dotp a b : ℚ) : ℝ) * Real.sqrt ((sqnorm c : ℚ) : ℝ) ≤
          -((dotp a c : ℚ) : ℝ) * Real.sqrt ((sqnorm b : ℚ) : ℝ) := by linarith
      exact_mod_cast key.mp h2

end MovieRec
